import Mathlib

/-!
Verification of the Reticulum Transport core (RNS/Transport.py) against its
natural-language specification.  The Python source is shallowly embedded:
byte strings become lists of natural numbers, interfaces are identified by
numeric ids, tables become association lists, and each operation under test
becomes an executable Lean function translated line by line from the source.
-/

/-- Bytes are natural numbers; byte strings are lists of bytes. -/
abbrev Bytes := List Nat

/-- Transport constants from the head of Transport.py. -/
def PATHFINDER_M : Nat := 128

def MAX_RANDOM_BLOBS : Nat := 64

def PERSIST_RANDOM_BLOBS : Nat := 32

/-- Transport type constants (Transport.BROADCAST and friends). -/
def BROADCAST : Nat := 0x00

def TRANSPORT : Nat := 0x01

/-- Modelled from the spec: header type constants of the packet codec
(RNS.Packet), which is outside this repository slice.  The spec fixes the
wire layout as byte 0 encoding header type shifted left by six. -/
def HEADER_1 : Nat := 0x00

def HEADER_2 : Nat := 0x01

/-- Modelled from the spec: truncated hashes are 16 bytes by default
(RNS.Identity.TRUNCATED_HASHLENGTH over eight). -/
def TRUNCATED_HASHLENGTH_B : Nat := 16

/-- Packet types of the packet codec contract. -/
inductive PacketType where
  | DATA
  | ANNOUNCE
  | LINKREQUEST
  | PROOF
deriving DecidableEq, Repr

/-- Destination types of the packet codec contract. -/
inductive DestinationType where
  | SINGLE
  | GROUP
  | PLAIN
  | LINK
deriving DecidableEq, Repr

/-- The packet contexts that the transport core inspects. -/
inductive PacketContext where
  | NONE
  | KEEPALIVE
  | RESOURCE_REQ
  | RESOURCE_PRF
  | RESOURCE
  | CACHE_REQUEST
  | CHANNEL
  | LRPROOF
  | PATH_RESPONSE
deriving DecidableEq, Repr

/-- The packet fields consulted by the duplicate-suppression filter. -/
structure FilterPacket where
  transport_id : Option Bytes
  packet_type : PacketType
  context : PacketContext
  destination_type : DestinationType
  hops : Nat
  packet_hash : Bytes
deriving DecidableEq, Repr

/-- Transport.packet_filter, translated from Transport.py lines 1090-1148.
The two hashlist generations are modelled as lists of packet hashes. -/
def packet_filter (is_connected_to_shared_instance : Bool) (identity_hash : Bytes)
    (packet_hashlist packet_hashlist_prev : List Bytes) (p : FilterPacket) : Bool :=
  if is_connected_to_shared_instance then true
  else if p.transport_id ≠ none ∧ p.packet_type ≠ PacketType.ANNOUNCE
          ∧ p.transport_id ≠ some identity_hash then false
  else if p.context = PacketContext.KEEPALIVE then true
  else if p.context = PacketContext.RESOURCE_REQ then true
  else if p.context = PacketContext.RESOURCE_PRF then true
  else if p.context = PacketContext.RESOURCE then true
  else if p.context = PacketContext.CACHE_REQUEST then true
  else if p.context = PacketContext.CHANNEL then true
  else if p.destination_type = DestinationType.PLAIN then
    (if p.packet_type ≠ PacketType.ANNOUNCE then (if p.hops > 1 then false else true)
     else false)
  else if p.destination_type = DestinationType.GROUP then
    (if p.packet_type ≠ PacketType.ANNOUNCE then (if p.hops > 1 then false else true)
     else false)
  else if p.packet_hash ∉ packet_hashlist ∧ p.packet_hash ∉ packet_hashlist_prev then true
  else if p.packet_type = PacketType.ANNOUNCE then
    (if p.destination_type = DestinationType.SINGLE then true else false)
  else false

/-- Transport.add_packet_hash, translated from Transport.py lines 1085-1088:
the hash is inserted only when not connected to a shared instance. -/
def add_packet_hash (is_connected_to_shared_instance : Bool)
    (packet_hashlist : List Bytes) (packet_hash : Bytes) : List Bytes :=
  if is_connected_to_shared_instance then packet_hashlist
  else if packet_hash ∈ packet_hashlist then packet_hashlist
  else packet_hash :: packet_hashlist

/-- The admission predicate of claim C2 stated in the words of the spec:
admit iff the hash is in neither hashlist generation, and announces are
additionally admitted only with a SINGLE destination type. -/
def c2_spec_admit (packet_hashlist packet_hashlist_prev : List Bytes)
    (p : FilterPacket) : Bool :=
  (p.packet_hash ∉ packet_hashlist ∧ p.packet_hash ∉ packet_hashlist_prev)
  ∧ (p.packet_type = PacketType.ANNOUNCE → p.destination_type = DestinationType.SINGLE)

/-- C2 (counterexample): an ANNOUNCE to a SINGLE destination whose packet
hash is already present in the current hashlist generation is admitted by
packet_filter, contradicting the claim that admission requires the hash to
be absent from both generations. -/
theorem c2_counterexample :
    packet_filter false [9] [[1]] []
      ⟨none, PacketType.ANNOUNCE, PacketContext.NONE, DestinationType.SINGLE, 0, [1]⟩ = true
    ∧ c2_spec_admit [[1]] []
      ⟨none, PacketType.ANNOUNCE, PacketContext.NONE, DestinationType.SINGLE, 0, [1]⟩ = false := by
  constructor <;> decide

/-- C2 (amended): for every packet reaching the final admission test of
packet_filter (not a shared-instance child, no foreign transport id except
announces, no link-protocol context, destination neither PLAIN nor GROUP),
the packet is admitted iff its hash is in neither hashlist generation OR it
is an ANNOUNCE with a SINGLE destination type; in particular a
duplicate-hash packet is admitted exactly when it is a SINGLE announce. -/
theorem c2_filter_amended (identity_hash : Bytes) (cur prev : List Bytes) (p : FilterPacket)
    (htid : p.transport_id = none ∨ p.transport_id = some identity_hash
            ∨ p.packet_type = PacketType.ANNOUNCE)
    (hc1 : p.context ≠ PacketContext.KEEPALIVE)
    (hc2 : p.context ≠ PacketContext.RESOURCE_REQ)
    (hc3 : p.context ≠ PacketContext.RESOURCE_PRF)
    (hc4 : p.context ≠ PacketContext.RESOURCE)
    (hc5 : p.context ≠ PacketContext.CACHE_REQUEST)
    (hc6 : p.context ≠ PacketContext.CHANNEL)
    (hdp : p.destination_type ≠ DestinationType.PLAIN)
    (hdg : p.destination_type ≠ DestinationType.GROUP) :
    packet_filter false identity_hash cur prev p = true ↔
      ((p.packet_hash ∉ cur ∧ p.packet_hash ∉ prev)
       ∨ (p.packet_type = PacketType.ANNOUNCE
          ∧ p.destination_type = DestinationType.SINGLE)) := by
  have htid2 : ¬ (p.transport_id ≠ none ∧ p.packet_type ≠ PacketType.ANNOUNCE
      ∧ p.transport_id ≠ some identity_hash) := by
    rcases htid with h | h | h <;> simp [h]
  simp only [packet_filter, if_neg htid2, if_neg hc1, if_neg hc2, if_neg hc3, if_neg hc4,
    if_neg hc5, if_neg hc6, if_neg hdp, if_neg hdg, Bool.if_false_left]
  by_cases hfresh : p.packet_hash ∉ cur ∧ p.packet_hash ∉ prev
  · simp [hfresh]
  · simp only [if_neg hfresh]
    by_cases hann : p.packet_type = PacketType.ANNOUNCE
    · by_cases hsingle : p.destination_type = DestinationType.SINGLE <;>
        simp [hann, hsingle, hfresh]
    · simp [hann, hfresh]

/-- C2 (amended, witness): instantiated at a duplicate-hash SINGLE announce,
which is admitted. -/
theorem c2_filter_amended_witness :
    packet_filter false [9] [[1]] []
      ⟨none, PacketType.ANNOUNCE, PacketContext.NONE, DestinationType.SINGLE, 0, [1]⟩ = true := by
  exact (c2_filter_amended [9] [[1]] []
    ⟨none, PacketType.ANNOUNCE, PacketContext.NONE, DestinationType.SINGLE, 0, [1]⟩
    (Or.inl rfl) (by decide) (by decide) (by decide) (by decide) (by decide) (by decide)
    (by decide) (by decide)).mpr (Or.inr (by decide))

/-- C10: when connected to a shared Reticulum instance, packet_filter admits
every packet without consulting the hashlist, transport-id filter or
PLAIN/GROUP hop rules, and add_packet_hash leaves the hashlist unchanged. -/
theorem c10_shared_instance_bypass (identity_hash : Bytes) (cur prev : List Bytes)
    (p : FilterPacket) (hashlist : List Bytes) (h : Bytes) :
    packet_filter true identity_hash cur prev p = true
    ∧ add_packet_hash true hashlist h = hashlist := by
  constructor <;> simp [packet_filter, add_packet_hash]

/-- Transport.timebase_from_random_blob, lines 2811-2813: the big-endian
integer encoded in bytes 5..10 of an announce random blob. -/
def timebase_from_random_blob (random_blob : Bytes) : Nat :=
  ((random_blob.drop 5).take 5).foldl (fun acc b => acc * 256 + b) 0

/-- Transport.timebase_from_random_blobs, lines 2815-2822: the running
maximum of the timebases of all stored random blobs. -/
def timebase_from_random_blobs (random_blobs : List Bytes) : Nat :=
  random_blobs.foldl
    (fun timebase random_blob =>
      if timebase_from_random_blob random_blob > timebase then
        timebase_from_random_blob random_blob
      else timebase) 0

/-- The loop of Transport.inbound lines 1548-1552: a running maximum over
the stored random blobs that stops early as soon as the running value
reaches the announce emission timebase. -/
def path_announce_emitted_scan (announce_emitted : Nat) :
    List Bytes → Nat → Nat
  | [], acc => acc
  | random_blob :: rest, acc =>
      let acc2 := max acc (timebase_from_random_blob random_blob)
      if acc2 ≥ announce_emitted then acc2
      else path_announce_emitted_scan announce_emitted rest acc2

/-- A path-table entry, field order as in the IDX_PT constants of
Transport.py: timestamp, next hop, hops, expires, random blobs, receiving
interface (an id), announce packet hash. -/
structure PathEntry where
  timestamp : Nat
  next_hop : Bytes
  hops : Nat
  expires : Nat
  random_blobs : List Bytes
  receiving_interface : Nat
  packet_hash : Bytes
deriving DecidableEq, Repr

/-- The should_add decision of Transport.inbound lines 1513-1594 against an
optional existing path entry. -/
def announce_should_add (path_entry : Option PathEntry) (path_is_unresponsive : Bool)
    (now packet_hops announce_emitted : Nat) (random_blob : Bytes) : Bool :=
  match path_entry with
  | none => true
  | some entry =>
      let random_blobs := entry.random_blobs
      if packet_hops ≤ entry.hops then
        let path_timebase := timebase_from_random_blobs random_blobs
        if random_blob ∉ random_blobs ∧ announce_emitted > path_timebase then true
        else false
      else
        let path_announce_emitted := path_announce_emitted_scan announce_emitted random_blobs 0
        if now ≥ entry.expires then
          (if random_blob ∉ random_blobs then true else false)
        else if announce_emitted > path_announce_emitted then
          (if random_blob ∉ random_blobs then true else false)
        else if announce_emitted = path_announce_emitted then
          (if path_is_unresponsive then true else false)
        else false

/-- The full admission decision including the guard of line 1517: the
destination must not be local and the hop count must be below
PATHFINDER_M plus one. -/
def announce_admission (destination_is_local : Bool) (packet_hops : Nat)
    (path_entry : Option PathEntry) (path_is_unresponsive : Bool)
    (now announce_emitted : Nat) (random_blob : Bytes) : Bool :=
  if ¬ destination_is_local ∧ packet_hops < PATHFINDER_M + 1 then
    announce_should_add path_entry path_is_unresponsive now packet_hops announce_emitted random_blob
  else false

/-- The admission decision of claim C1 stated in the words of the spec,
with T always the maximum timebase over all stored random blobs. -/
def c1_claim_admit (path_entry : Option PathEntry) (path_is_unresponsive : Bool)
    (now packet_hops announce_emitted : Nat) (random_blob : Bytes) : Bool :=
  match path_entry with
  | none => true
  | some entry =>
      let t := timebase_from_random_blobs entry.random_blobs
      if packet_hops ≤ entry.hops then
        (random_blob ∉ entry.random_blobs ∧ announce_emitted > t)
      else
        ((now ≥ entry.expires ∧ random_blob ∉ entry.random_blobs)
         ∨ (announce_emitted > t ∧ random_blob ∉ entry.random_blobs)
         ∨ (announce_emitted = t ∧ path_is_unresponsive))

theorem foldl_max_acc_le (tb : Bytes → Nat) (blobs : List Bytes) (acc : Nat) :
    acc ≤ blobs.foldl (fun a rb => max a (tb rb)) acc := by
  induction blobs generalizing acc with
  | nil => exact Nat.le_refl acc
  | cons b rest ih => exact Nat.le_trans (Nat.le_max_left acc (tb b)) (ih (max acc (tb b)))

theorem timebase_foldl_max (blobs : List Bytes) (acc : Nat) :
    blobs.foldl
      (fun timebase random_blob =>
        if timebase_from_random_blob random_blob > timebase then
          timebase_from_random_blob random_blob
        else timebase) acc
    = blobs.foldl (fun a rb => max a (timebase_from_random_blob rb)) acc := by
  induction blobs generalizing acc with
  | nil => rfl
  | cons b rest ih =>
      simp only [List.foldl_cons]
      have h : (if timebase_from_random_blob b > acc then timebase_from_random_blob b else acc)
          = max acc (timebase_from_random_blob b) := by
        rw [Nat.max_def]; split <;> split <;> omega
      rw [h, ih]

/-- The early-break scan underestimates the full maximum only above the
announce emission timebase: below it they agree. -/
theorem scan_lt_iff (announce_emitted : Nat) (blobs : List Bytes) (acc : Nat) :
    path_announce_emitted_scan announce_emitted blobs acc < announce_emitted ↔
      blobs.foldl (fun a rb => max a (timebase_from_random_blob rb)) acc < announce_emitted := by
  induction blobs generalizing acc with
  | nil => simp [path_announce_emitted_scan]
  | cons b rest ih =>
      simp only [path_announce_emitted_scan, List.foldl_cons]
      by_cases hbr : max acc (timebase_from_random_blob b) ≥ announce_emitted
      · simp only [if_pos hbr]
        have hge := foldl_max_acc_le timebase_from_random_blob rest
          (max acc (timebase_from_random_blob b))
        constructor
        · intro h; omega
        · intro h; omega
      · simp only [if_neg hbr]
        exact ih (max acc (timebase_from_random_blob b))

/-- C1 (amended): announce admission follows the decision table of the code:
a non-local announce with hops up to 128 is admitted when no path entry
exists; against an existing entry with hops less than or equal to the
stored hops, iff the blob is new and its emission timebase E exceeds the
maximum timebase T over the stored blobs; with hops greater than the
stored hops, iff the path has expired and the blob is new, or the path has
not expired and E exceeds T and the blob is new, or the path has not
expired and E equals the value of the early-break prefix scan over the
stored blobs (which can be smaller than T) and the path state is
UNRESPONSIVE. -/
theorem c1_admission_amended (destination_is_local : Bool) (packet_hops : Nat)
    (path_entry : Option PathEntry) (path_is_unresponsive : Bool)
    (now announce_emitted : Nat) (random_blob : Bytes) :
    announce_admission destination_is_local packet_hops path_entry path_is_unresponsive
        now announce_emitted random_blob = true ↔
      (destination_is_local = false ∧ packet_hops ≤ PATHFINDER_M ∧
        (path_entry = none ∨
          ∃ entry, path_entry = some entry ∧
            ((packet_hops ≤ entry.hops ∧ random_blob ∉ entry.random_blobs ∧
              timebase_from_random_blobs entry.random_blobs < announce_emitted)
             ∨ (entry.hops < packet_hops ∧ entry.expires ≤ now ∧
                random_blob ∉ entry.random_blobs)
             ∨ (entry.hops < packet_hops ∧ now < entry.expires ∧
                timebase_from_random_blobs entry.random_blobs < announce_emitted ∧
                random_blob ∉ entry.random_blobs)
             ∨ (entry.hops < packet_hops ∧ now < entry.expires ∧
                announce_emitted
                  = path_announce_emitted_scan announce_emitted entry.random_blobs 0 ∧
                path_is_unresponsive = true)))) := by
  unfold announce_admission
  by_cases hguard : ¬ destination_is_local = true ∧ packet_hops < PATHFINDER_M + 1
  · simp only [if_pos hguard]
    obtain ⟨hlocal, hhops⟩ := hguard
    have hl : destination_is_local = false := by
      cases destination_is_local <;> simp_all
    have hm : packet_hops ≤ PATHFINDER_M := by omega
    simp only [hl, hm, true_and]
    cases path_entry with
    | none => simp [announce_should_add]
    | some entry =>
        simp only [announce_should_add, Option.some.injEq]
        have hscan : announce_emitted > path_announce_emitted_scan announce_emitted
            entry.random_blobs 0 ↔
            timebase_from_random_blobs entry.random_blobs < announce_emitted := by
          have h2 := scan_lt_iff announce_emitted entry.random_blobs 0
          rw [timebase_from_random_blobs, timebase_foldl_max]
          exact h2
        constructor
        · intro h
          refine Or.inr ⟨entry, rfl, ?_⟩
          by_cases hle : packet_hops ≤ entry.hops
          · simp only [if_pos hle] at h
            split at h
            · rename_i hcond
              exact Or.inl ⟨hle, hcond.1, by omega⟩
            · exact absurd h (by simp)
          · simp only [if_neg hle] at h
            have hgt : entry.hops < packet_hops := by omega
            by_cases hexp : now ≥ entry.expires
            · simp only [if_pos hexp] at h
              split at h
              · rename_i hnew
                exact Or.inr (Or.inl ⟨hgt, by omega, hnew⟩)
              · exact absurd h (by simp)
            · simp only [if_neg hexp] at h
              by_cases hgtT : announce_emitted > path_announce_emitted_scan announce_emitted
                  entry.random_blobs 0
              · simp only [if_pos hgtT] at h
                split at h
                · rename_i hnew
                  exact Or.inr (Or.inr (Or.inl ⟨hgt, by omega, hscan.mp hgtT, hnew⟩))
                · exact absurd h (by simp)
              · simp only [if_neg hgtT] at h
                by_cases heq : announce_emitted = path_announce_emitted_scan announce_emitted
                    entry.random_blobs 0
                · simp only [if_pos heq] at h
                  split at h
                  · rename_i hunresp
                    exact Or.inr (Or.inr (Or.inr ⟨hgt, by omega, heq, hunresp⟩))
                  · exact absurd h (by simp)
                · simp only [if_neg heq] at h
                  exact absurd h (by simp)
        · intro h
          rcases h with h | ⟨entry2, rfl, hcase⟩
          · exact absurd h (by simp)
          · rcases hcase with ⟨hle, hnew, hT⟩ | ⟨hgt, hexp, hnew⟩ | ⟨hgt, hexp, hT, hnew⟩ |
              ⟨hgt, hexp, heq, hunresp⟩
            · simp only [if_pos hle]
              rw [if_pos ⟨hnew, by omega⟩]
            · rw [if_neg (by omega), if_pos (by omega), if_pos hnew]
            · rw [if_neg (by omega), if_neg (by omega), if_pos (hscan.mpr hT), if_pos hnew]
            · have hnotgt : ¬ announce_emitted > path_announce_emitted_scan announce_emitted
                  entry.random_blobs 0 := by omega
              rw [if_neg (by omega), if_neg (by omega), if_neg hnotgt, if_pos heq,
                if_pos hunresp]
  · simp only [if_neg hguard]
    constructor
    · intro h; exact absurd h (by simp)
    · intro h
      exact absurd (And.intro (by simp [h.1]) (by have := h.2.1; omega)) hguard

/-- C1 (counterexample): stored blobs with timebases 5 then 9 (stored in
that order), an announce with emission timebase 5, hops 3 against stored
hops 2, an unexpired path marked UNRESPONSIVE and a fresh blob: the code
admits the announce (the early-break prefix scan stops at 5, which equals
the emission timebase), but the claim rejects it, because the maximum
stored timebase is 9, so none of its three clauses holds. -/
theorem c1_counterexample :
    announce_admission false 3
      (some ⟨0, [], 2, 1000, [[0,0,0,0,0,0,0,0,0,5], [0,0,0,0,0,0,0,0,0,9]], 0, []⟩)
      true 100 5 [1,0,0,0,0,0,0,0,0,5] = true
    ∧ c1_claim_admit
      (some ⟨0, [], 2, 1000, [[0,0,0,0,0,0,0,0,0,5], [0,0,0,0,0,0,0,0,0,9]], 0, []⟩)
      true 100 3 5 [1,0,0,0,0,0,0,0,0,5] = false := by
  constructor <;> decide

/-- The packet fields consulted by the outbound dispatcher. -/
structure OutboundPacket where
  raw : Bytes
  header_type : Nat
  flags : Nat
  packet_type : PacketType
  destination_type : DestinationType
  destination_hash : Bytes
deriving DecidableEq, Repr

/-- What the outbound dispatcher does with a packet: transmit a frame on a
single interface, transmit nothing (a HEADER_2 packet in the known-path
branch), or fall through to the broadcast fallback of lines 923-1080,
which is outside the scope of the known-path claims. -/
inductive OutboundAction where
  | transmit : Nat → Bytes → OutboundAction
  | none_sent : OutboundAction
  | fallback : OutboundAction
deriving DecidableEq, Repr

/-- The known-path branch of Transport.outbound, lines 874-921, given the
path-table lookup result for the destination of the packet.  Returns the
action and the path entry after dispatch (the hops greater than one and
the behind-shared-instance branches refresh its timestamp; the direct
branch transmits the raw bytes as-is). -/
def outbound_dispatch (path_entry : Option PathEntry) (behind_shared : Bool)
    (p : OutboundPacket) (now : Nat) : OutboundAction × Option PathEntry :=
  match path_entry with
  | some entry =>
      if p.packet_type ≠ PacketType.ANNOUNCE ∧ p.destination_type ≠ DestinationType.PLAIN
         ∧ p.destination_type ≠ DestinationType.GROUP then
        let outbound_interface := entry.receiving_interface
        if entry.hops > 1 then
          if p.header_type = HEADER_1 then
            let new_raw := (HEADER_2 <<< 6 ||| TRANSPORT <<< 4 ||| (p.flags &&& 15))
              :: ((p.raw.drop 1).take 1 ++ (entry.next_hop ++ p.raw.drop 2))
            (OutboundAction.transmit outbound_interface new_raw,
             some ⟨now, entry.next_hop, entry.hops, entry.expires, entry.random_blobs,
                   entry.receiving_interface, entry.packet_hash⟩)
          else (OutboundAction.none_sent, some entry)
        else if entry.hops = 1 ∧ behind_shared = true then
          if p.header_type = HEADER_1 then
            let new_raw := (HEADER_2 <<< 6 ||| TRANSPORT <<< 4 ||| (p.flags &&& 15))
              :: ((p.raw.drop 1).take 1 ++ (entry.next_hop ++ p.raw.drop 2))
            (OutboundAction.transmit outbound_interface new_raw,
             some ⟨now, entry.next_hop, entry.hops, entry.expires, entry.random_blobs,
                   entry.receiving_interface, entry.packet_hash⟩)
          else (OutboundAction.none_sent, some entry)
        else
          (OutboundAction.transmit outbound_interface p.raw, some entry)
      else (OutboundAction.fallback, some entry)
  | none => (OutboundAction.fallback, none)

/-- C7: a locally originated non-ANNOUNCE, non-PLAIN, non-GROUP HEADER_1
packet whose destination has a path entry with hops above one (or exactly
one while behind a shared instance) is transmitted on exactly the path
interface with first byte HEADER_2/TRANSPORT plus the original low flag
nibble, second byte the original hop byte, bytes 2..18 the stored next-hop
transport id, and the remaining bytes the original payload unchanged. -/
theorem c7_outbound_transport_header (entry : PathEntry) (behind_shared : Bool)
    (p : OutboundPacket) (now : Nat) (a b : Nat) (t : Bytes)
    (hann : p.packet_type ≠ PacketType.ANNOUNCE)
    (hpl : p.destination_type ≠ DestinationType.PLAIN)
    (hgr : p.destination_type ≠ DestinationType.GROUP)
    (hhops : entry.hops > 1 ∨ (entry.hops = 1 ∧ behind_shared = true))
    (hh1 : p.header_type = HEADER_1)
    (hraw : p.raw = a :: b :: t)
    (hnh : entry.next_hop.length = 16) :
    (outbound_dispatch (some entry) behind_shared p now).1
      = OutboundAction.transmit entry.receiving_interface
          ((HEADER_2 <<< 6 ||| TRANSPORT <<< 4 ||| (p.flags &&& 15))
            :: b :: (entry.next_hop ++ t))
    ∧ (((HEADER_2 <<< 6 ||| TRANSPORT <<< 4 ||| (p.flags &&& 15))
          :: b :: (entry.next_hop ++ t)).drop 2).take 16 = entry.next_hop
    ∧ ((HEADER_2 <<< 6 ||| TRANSPORT <<< 4 ||| (p.flags &&& 15))
          :: b :: (entry.next_hop ++ t)).drop 18 = t := by
  have hframe : (p.raw.drop 1).take 1 ++ (entry.next_hop ++ p.raw.drop 2)
      = b :: (entry.next_hop ++ t) := by
    simp [hraw]
  have htake : (entry.next_hop ++ t).take 16 = entry.next_hop := by
    rw [← hnh]; exact List.take_left entry.next_hop t
  have hdrop : (entry.next_hop ++ t).drop 16 = t := by
    rw [← hnh]; exact List.drop_left entry.next_hop t
  refine ⟨?_, by simpa using htake, by simpa using hdrop⟩
  simp only [outbound_dispatch]
  rcases hhops with hgt | ⟨hone, hsh⟩
  · rw [if_pos ⟨hann, hpl, hgr⟩, if_pos hgt, if_pos hh1]
    simp [hraw]
  · rw [if_pos ⟨hann, hpl, hgr⟩, if_neg (by omega), if_pos ⟨hone, hsh⟩, if_pos hh1]
    simp [hraw]

/-- C7 (witness): a DATA packet with a three-hop path entry gets the
transport header inserted and goes out on the path interface. -/
theorem c7_outbound_transport_header_witness :
    (outbound_dispatch
        (some ⟨0, [3,3,3,3,3,3,3,3,3,3,3,3,3,3,3,3], 3, 100, [], 7, []⟩) false
        ⟨[64, 2, 9, 9], HEADER_1, 0, PacketType.DATA, DestinationType.SINGLE, []⟩ 50).1
      = OutboundAction.transmit 7
          ((HEADER_2 <<< 6 ||| TRANSPORT <<< 4 ||| (0 &&& 15))
            :: 2 :: ([3,3,3,3,3,3,3,3,3,3,3,3,3,3,3,3] ++ [9, 9])) := by
  exact (c7_outbound_transport_header
    ⟨0, [3,3,3,3,3,3,3,3,3,3,3,3,3,3,3,3], 3, 100, [], 7, []⟩ false
    ⟨[64, 2, 9, 9], HEADER_1, 0, PacketType.DATA, DestinationType.SINGLE, []⟩ 50
    64 2 [9, 9] (by decide) (by decide) (by decide) (Or.inl (by decide)) rfl rfl
    (by decide)).1

/-- C8 (counterexample): for a direct (one-hop, not behind a shared
instance) delivery, the path entry is returned unchanged: its timestamp
stays 5 although the current time is 99, contradicting the claim that the
timestamp is refreshed to the current time. -/
theorem c8_counterexample :
    (outbound_dispatch (some ⟨5, [], 1, 100, [], 7, []⟩) false
        ⟨[0, 0, 42], HEADER_1, 0, PacketType.DATA, DestinationType.SINGLE, []⟩ 99)
      = (OutboundAction.transmit 7 [0, 0, 42], some ⟨5, [], 1, 100, [], 7, []⟩)
    ∧ (5 : Nat) ≠ 99 := by
  constructor <;> decide

/-- C8 (amended): a locally originated non-ANNOUNCE, non-PLAIN, non-GROUP
packet with a path entry of at most one hop, not behind a shared instance,
is transmitted with its raw bytes unmodified on exactly the path
interface, and the path entry (including its timestamp) is left
unchanged. -/
theorem c8_direct_amended (entry : PathEntry) (behind_shared : Bool)
    (p : OutboundPacket) (now : Nat)
    (hann : p.packet_type ≠ PacketType.ANNOUNCE)
    (hpl : p.destination_type ≠ DestinationType.PLAIN)
    (hgr : p.destination_type ≠ DestinationType.GROUP)
    (hhops : ¬ entry.hops > 1)
    (hsh : ¬ (entry.hops = 1 ∧ behind_shared = true)) :
    outbound_dispatch (some entry) behind_shared p now
      = (OutboundAction.transmit entry.receiving_interface p.raw, some entry) := by
  simp only [outbound_dispatch]
  rw [if_pos ⟨hann, hpl, hgr⟩, if_neg hhops, if_neg hsh]

/-- C8 (amended, witness): instantiated at a one-hop path entry. -/
theorem c8_direct_amended_witness :
    outbound_dispatch (some ⟨5, [], 1, 100, [], 7, []⟩) false
        ⟨[0, 0, 42], HEADER_1, 0, PacketType.DATA, DestinationType.SINGLE, []⟩ 99
      = (OutboundAction.transmit 7 [0, 0, 42], some ⟨5, [], 1, 100, [], 7, []⟩) := by
  exact c8_direct_amended ⟨5, [], 1, 100, [], 7, []⟩ false
    ⟨[0, 0, 42], HEADER_1, 0, PacketType.DATA, DestinationType.SINGLE, []⟩ 99
    (by decide) (by decide) (by decide) (by decide) (by decide)

/-- The packet fields consulted for transit forwarding. -/
structure TransitPacket where
  raw : Bytes
  flags : Nat
  hops : Nat
  packet_type : PacketType
  destination_hash : Bytes
  receiving_interface : Nat
  truncated_hash : Bytes
deriving DecidableEq, Repr

/-- A reverse-table entry, field order as in the IDX_RT constants:
received-on interface, outbound interface, timestamp. -/
structure ReverseEntry where
  received_if : Nat
  outbound_if : Nat
  timestamp : Nat
deriving DecidableEq, Repr

/-- The frame rewrite of Transport.inbound lines 1343-1359: with remaining
hops above one, refresh the hop byte and replace the 16-byte next-hop
transport id; with exactly one remaining hop, strip the transport header
into a HEADER_1 BROADCAST frame; with zero remaining hops, only update the
hop byte. -/
def transit_new_raw (raw : Bytes) (flags hops : Nat) (next_hop : Bytes)
    (remaining_hops : Nat) : Bytes :=
  if remaining_hops > 1 then
    raw.take 1 ++ [hops % 256] ++ next_hop ++ raw.drop (TRUNCATED_HASHLENGTH_B + 2)
  else if remaining_hops = 1 then
    [HEADER_1 <<< 6 ||| BROADCAST <<< 4 ||| (flags &&& 15), hops % 256]
      ++ raw.drop (TRUNCATED_HASHLENGTH_B + 2)
  else
    raw.take 1 ++ [hops % 256] ++ raw.drop 2

/-- A link-table entry, field order as in the IDX_LT constants: timestamp,
next-hop transport id, next-hop interface, remaining hops, received-on
interface, taken hops, original destination hash, validated flag, proof
timeout. -/
structure LinkEntry where
  timestamp : Nat
  next_hop : Bytes
  next_hop_if : Nat
  remaining_hops : Nat
  received_if : Nat
  taken_hops : Nat
  destination_hash : Bytes
  validated : Bool
  proof_timeout : Nat
deriving DecidableEq, Repr

/-- Lookup in an association-list model of a Python dict. -/
def lookupKey {β : Type} (k : Bytes) : List (Bytes × β) → Option β
  | [] => none
  | kv :: rest => if kv.1 = k then some kv.2 else lookupKey k rest

/-- Removal of a key, modelling dict.pop. -/
def removeKey {β : Type} (k : Bytes) (l : List (Bytes × β)) : List (Bytes × β) :=
  l.filter (fun kv => decide (kv.1 ≠ k))

theorem lookupKey_removeKey {β : Type} (k : Bytes) (l : List (Bytes × β)) :
    lookupKey k (removeKey k l) = none := by
  induction l with
  | nil => rfl
  | cons kv rest ih =>
      by_cases hk : kv.1 = k
      · simpa [removeKey, hk] using ih
      · simpa [removeKey, lookupKey, hk] using ih

/-- The assignment of True to the validated field of a link-table entry,
line 1936. -/
def set_link_validated (k : Bytes) (l : List (Bytes × LinkEntry)) :
    List (Bytes × LinkEntry) :=
  l.map (fun kv =>
    if kv.1 = k then
      (kv.1, ⟨kv.2.timestamp, kv.2.next_hop, kv.2.next_hop_if, kv.2.remaining_hops,
        kv.2.received_if, kv.2.taken_hops, kv.2.destination_hash, true,
        kv.2.proof_timeout⟩)
    else kv)

theorem lookupKey_set_link_validated (k : Bytes) (l : List (Bytes × LinkEntry))
    (entry : LinkEntry) (h : lookupKey k l = some entry) :
    lookupKey k (set_link_validated k l)
      = some ⟨entry.timestamp, entry.next_hop, entry.next_hop_if, entry.remaining_hops,
          entry.received_if, entry.taken_hops, entry.destination_hash, true,
          entry.proof_timeout⟩ := by
  induction l with
  | nil => simp [lookupKey] at h
  | cons kv rest ih =>
      by_cases hk : kv.1 = k
      · simp only [lookupKey, if_pos hk] at h
        injection h with h2
        simp [set_link_validated, lookupKey, hk, h2]
      · simp only [lookupKey, if_neg hk] at h
        simpa [set_link_validated, lookupKey, hk] using ih h

/-- The packet fields consulted by proof transit. -/
structure ProofPacket where
  raw : Bytes
  data : Bytes
  hops : Nat
  destination_hash : Bytes
  receiving_interface : Nat
deriving DecidableEq, Repr

/-- Modelled from the spec: the byte sizes of a signature (64), half of a
public key (32) and the link MTU signalling field (3) come from the
identity and link modules, which are outside this repository slice. -/
def SIGLENGTH_B : Nat := 64

def ECPUB_HALF_B : Nat := 32

def LINK_MTU_SIZE : Nat := 3

/-- Link-request proof transit, Transport.inbound lines 1910-1948.  The
boolean collapses transport_enabled or for_local_client_link or
from_local_client; validate is the signature check of the recalled peer
identity; peer_sig_pub is the second half of its public key;
signalling_recompute re-derives the signalling bytes from the proof data
when the link MTU field is present.  Returns the transmit and the updated
link table. -/
def lrproof_transit (transport_or_local : Bool)
    (link_table : List (Bytes × LinkEntry))
    (validate : Bytes → Bytes → Bool) (peer_sig_pub : Bytes)
    (signalling_recompute : Bytes → Bytes) (p : ProofPacket) :
    Option (Nat × Bytes) × List (Bytes × LinkEntry) :=
  match lookupKey p.destination_hash link_table, transport_or_local with
  | some link_entry, true =>
      if p.hops = link_entry.remaining_hops then
        if p.receiving_interface = link_entry.next_hop_if then
          if p.data.length = SIGLENGTH_B + ECPUB_HALF_B
             ∨ p.data.length = SIGLENGTH_B + ECPUB_HALF_B + LINK_MTU_SIZE then
            let signalling_bytes :=
              if p.data.length = SIGLENGTH_B + ECPUB_HALF_B + LINK_MTU_SIZE then
                signalling_recompute p.data
              else []
            let peer_pub_bytes := (p.data.drop SIGLENGTH_B).take ECPUB_HALF_B
            let signed_data := p.destination_hash ++ peer_pub_bytes ++ peer_sig_pub
              ++ signalling_bytes
            let signature := p.data.take SIGLENGTH_B
            if validate signature signed_data then
              (some (link_entry.received_if, p.raw.take 1 ++ [p.hops % 256] ++ p.raw.drop 2),
               set_link_validated p.destination_hash link_table)
            else (none, link_table)
          else (none, link_table)
        else (none, link_table)
      else (none, link_table)
  | _, _ => (none, link_table)

/-- Transit handling for proofs other than link-request proofs,
Transport.inbound lines 1988-1998: if the destination hash is a
reverse-table key, the entry is popped; if the proof arrived on the
recorded outbound interface it is retransmitted with a refreshed hop byte
on the recorded receiving interface. -/
def proof_transit (transport_or_local : Bool)
    (reverse_table : List (Bytes × ReverseEntry)) (p : ProofPacket) :
    Option (Nat × Bytes) × List (Bytes × ReverseEntry) :=
  match lookupKey p.destination_hash reverse_table, transport_or_local with
  | some reverse_entry, true =>
      let table2 := removeKey p.destination_hash reverse_table
      if p.receiving_interface = reverse_entry.outbound_if then
        (some (reverse_entry.received_if,
          p.raw.take 1 ++ [p.hops % 256] ++ p.raw.drop 2), table2)
      else (none, table2)
  | _, _ => (none, reverse_table)

/-- C5: an LRPROOF for a link-table entry arriving on the recorded next-hop
interface with hops equal to the stored remaining hops and a valid
signature over the link id, peer public key, peer signing key and optional
signalling bytes marks the entry validated and is retransmitted with a
refreshed hop byte on the recorded receiving interface; with a wrong
interface, a hop mismatch or an invalid signature nothing is transmitted
and the link table (hence the false validated flag) is unchanged. -/
theorem c5_lrproof_symmetry (link_table : List (Bytes × LinkEntry))
    (validate : Bytes → Bytes → Bool) (peer_sig_pub : Bytes)
    (signalling_recompute : Bytes → Bytes) (p : ProofPacket) (entry : LinkEntry)
    (hfound : lookupKey p.destination_hash link_table = some entry)
    (hval : entry.validated = false) :
    ((p.hops = entry.remaining_hops ∧ p.receiving_interface = entry.next_hop_if
      ∧ (p.data.length = SIGLENGTH_B + ECPUB_HALF_B
         ∨ p.data.length = SIGLENGTH_B + ECPUB_HALF_B + LINK_MTU_SIZE)
      ∧ validate (p.data.take SIGLENGTH_B)
          (p.destination_hash ++ (p.data.drop SIGLENGTH_B).take ECPUB_HALF_B
            ++ peer_sig_pub
            ++ (if p.data.length = SIGLENGTH_B + ECPUB_HALF_B + LINK_MTU_SIZE then
                  signalling_recompute p.data else [])) = true) →
      (lrproof_transit true link_table validate peer_sig_pub signalling_recompute p).1
          = some (entry.received_if, p.raw.take 1 ++ [p.hops % 256] ++ p.raw.drop 2)
        ∧ lookupKey p.destination_hash
            (lrproof_transit true link_table validate peer_sig_pub
              signalling_recompute p).2
          = some ⟨entry.timestamp, entry.next_hop, entry.next_hop_if,
              entry.remaining_hops, entry.received_if, entry.taken_hops,
              entry.destination_hash, true, entry.proof_timeout⟩)
    ∧ ((p.receiving_interface ≠ entry.next_hop_if ∨ p.hops ≠ entry.remaining_hops
        ∨ validate (p.data.take SIGLENGTH_B)
            (p.destination_hash ++ (p.data.drop SIGLENGTH_B).take ECPUB_HALF_B
              ++ peer_sig_pub
              ++ (if p.data.length = SIGLENGTH_B + ECPUB_HALF_B + LINK_MTU_SIZE then
                    signalling_recompute p.data else [])) = false) →
        (lrproof_transit true link_table validate peer_sig_pub signalling_recompute p).1
            = none
        ∧ (lrproof_transit true link_table validate peer_sig_pub
            signalling_recompute p).2 = link_table) := by
  constructor
  · rintro ⟨hhops, hif, hlen, hsig⟩
    have hres : lrproof_transit true link_table validate peer_sig_pub
        signalling_recompute p
        = (some (entry.received_if, p.raw.take 1 ++ [p.hops % 256] ++ p.raw.drop 2),
           set_link_validated p.destination_hash link_table) := by
      simp only [lrproof_transit, hfound, if_pos hhops, if_pos hif, if_pos hlen, hsig,
        if_true]
    rw [hres]
    exact ⟨rfl, lookupKey_set_link_validated p.destination_hash link_table entry hfound⟩
  · intro hneg
    rcases hneg with hif | hhops | hsigf
    · by_cases hh : p.hops = entry.remaining_hops
      · simp only [lrproof_transit, hfound, if_pos hh, if_neg hif]
        refine ⟨?_, ?_⟩ <;> (first | rfl | trivial)
      · simp only [lrproof_transit, hfound, if_neg hh]
        refine ⟨?_, ?_⟩ <;> (first | rfl | trivial)
    · simp only [lrproof_transit, hfound, if_neg hhops]
      refine ⟨?_, ?_⟩ <;> (first | rfl | trivial)
    · by_cases hh : p.hops = entry.remaining_hops
      · by_cases hi : p.receiving_interface = entry.next_hop_if
        · by_cases hl : p.data.length = SIGLENGTH_B + ECPUB_HALF_B
              ∨ p.data.length = SIGLENGTH_B + ECPUB_HALF_B + LINK_MTU_SIZE
          · simp only [lrproof_transit, hfound, if_pos hh, if_pos hi, if_pos hl, hsigf,
              if_false]
            refine ⟨?_, ?_⟩ <;> (first | rfl | trivial)
          · simp only [lrproof_transit, hfound, if_pos hh, if_pos hi, if_neg hl]
            refine ⟨?_, ?_⟩ <;> (first | rfl | trivial)
        · simp only [lrproof_transit, hfound, if_pos hh, if_neg hi]
          refine ⟨?_, ?_⟩ <;> (first | rfl | trivial)
      · simp only [lrproof_transit, hfound, if_neg hh]
        refine ⟨?_, ?_⟩ <;> (first | rfl | trivial)

/-- C5 (witness): a matching LRPROOF on a one-entry link table is validated
and retransmitted on the recorded receiving interface. -/
theorem c5_lrproof_symmetry_witness :
    (lrproof_transit true [([1], ⟨0, [2], 3, 2, 9, 5, [4], false, 0⟩)]
        (fun _ _ => true) [] (fun _ => []) ⟨[10, 0, 99], List.replicate 96 0, 2, [1], 3⟩).1
      = some (9, [10] ++ [2 % 256] ++ [99]) := by
  exact ((c5_lrproof_symmetry [([1], ⟨0, [2], 3, 2, 9, 5, [4], false, 0⟩)]
    (fun _ _ => true) [] (fun _ => []) ⟨[10, 0, 99], List.replicate 96 0, 2, [1], 3⟩
    ⟨0, [2], 3, 2, 9, 5, [4], false, 0⟩ (by decide) rfl).1
    ⟨rfl, rfl, Or.inl (by decide), rfl⟩).1

/-- C6: a non-LRPROOF proof whose destination hash matches a reverse-table
entry and which arrives on the recorded outbound interface is forwarded,
hop byte refreshed, on the recorded receiving interface; the reverse entry
is consumed, so looking it up afterwards fails and processing the same
proof again forwards nothing. -/
theorem c6_proof_symmetry (reverse_table : List (Bytes × ReverseEntry))
    (p : ProofPacket) (entry : ReverseEntry)
    (hfound : lookupKey p.destination_hash reverse_table = some entry)
    (hif : p.receiving_interface = entry.outbound_if) :
    (proof_transit true reverse_table p).1
        = some (entry.received_if, p.raw.take 1 ++ [p.hops % 256] ++ p.raw.drop 2)
    ∧ lookupKey p.destination_hash (proof_transit true reverse_table p).2 = none
    ∧ (proof_transit true (proof_transit true reverse_table p).2 p).1 = none := by
  have h1 : proof_transit true reverse_table p
      = (some (entry.received_if, p.raw.take 1 ++ [p.hops % 256] ++ p.raw.drop 2),
         removeKey p.destination_hash reverse_table) := by
    simp only [proof_transit, hfound, if_pos hif]
  have h2 : lookupKey p.destination_hash (removeKey p.destination_hash reverse_table)
      = none := lookupKey_removeKey p.destination_hash reverse_table
  refine ⟨by rw [h1], by rw [h1]; exact h2, ?_⟩
  rw [h1]
  simp only [proof_transit, h2]

/-- C6 (witness): a concrete forwarded-then-proved round: the proof is sent
back on the interface the forward packet arrived on, and a second copy is
not forwarded. -/
theorem c6_proof_symmetry_witness :
    (proof_transit true [([8], ⟨2, 5, 0⟩)] ⟨[7, 0, 3], [], 4, [8], 5⟩).1
        = some (2, [7] ++ [4 % 256] ++ [3])
    ∧ (proof_transit true
        (proof_transit true [([8], ⟨2, 5, 0⟩)] ⟨[7, 0, 3], [], 4, [8], 5⟩).2
        ⟨[7, 0, 3], [], 4, [8], 5⟩).1 = none := by
  have h := c6_proof_symmetry [([8], ⟨2, 5, 0⟩)] ⟨[7, 0, 3], [], 4, [8], 5⟩
    ⟨2, 5, 0⟩ (by decide) rfl
  exact ⟨h.1, h.2.2⟩

/-- The last n elements of a list, modelling a Python tail slice with a
negative start index. -/
def takeLast {α : Type} (n : Nat) (l : List α) : List α := l.drop (l.length - n)

/-- The random-blob update of Transport.inbound lines 1645-1647: append the
blob when it is new, then keep only the last MAX_RANDOM_BLOBS entries. -/
def update_random_blobs (random_blob : Bytes) (random_blobs : List Bytes) : List Bytes :=
  if random_blob ∈ random_blobs then random_blobs
  else takeLast MAX_RANDOM_BLOBS (random_blobs ++ [random_blob])

/-- The in-memory random-blob invariant: the update preserves distinctness
and the 64-entry bound. -/
theorem update_random_blobs_invariant (random_blob : Bytes) (random_blobs : List Bytes)
    (hnd : random_blobs.Nodup) (hlen : random_blobs.length ≤ MAX_RANDOM_BLOBS) :
    (update_random_blobs random_blob random_blobs).Nodup
    ∧ (update_random_blobs random_blob random_blobs).length ≤ MAX_RANDOM_BLOBS := by
  unfold update_random_blobs
  by_cases hmem : random_blob ∈ random_blobs
  · simp only [if_pos hmem]
    exact ⟨hnd, hlen⟩
  · simp only [if_neg hmem]
    have happ : (random_blobs ++ [random_blob]).Nodup := by
      rw [List.nodup_append]
      refine ⟨hnd, List.nodup_singleton random_blob, ?_⟩
      intro a ha hb
      rw [List.mem_singleton] at hb
      exact hmem (hb ▸ ha)
    constructor
    · exact (List.drop_sublist _ _).nodup happ
    · unfold takeLast
      rw [List.length_drop]
      have hM : MAX_RANDOM_BLOBS = 64 := rfl
      have hL : (random_blobs ++ [random_blob]).length = random_blobs.length + 1 := by
        simp
      omega

/-- A serialized path entry, field order as written by the persistence
snapshots: destination hash, timestamp, received-from, hops, expires,
random blobs, interface hash, announce packet hash. -/
structure SerialisedPathEntry where
  destination_hash : Bytes
  timestamp : Nat
  received_from : Bytes
  hops : Nat
  expires : Nat
  random_blobs : List Bytes
  interface_hash : Nat
  packet_hash : Bytes
deriving DecidableEq, Repr

/-- Serialization of one path-table entry by Transport.save_path_table,
lines 2896-2916: the random_blobs field is written as stored in memory. -/
def serialise_destination (destination_hash : Bytes) (e : PathEntry) :
    SerialisedPathEntry :=
  ⟨destination_hash, e.timestamp, e.next_hop, e.hops, e.expires, e.random_blobs,
   e.receiving_interface, e.packet_hash⟩

/-- Serialization of one tunnel path entry by Transport.save_tunnel_table,
lines 2967-2989: the random_blobs field is truncated to the last
PERSIST_RANDOM_BLOBS entries. -/
def serialise_tunnel_path (interface_hash : Nat) (destination_hash : Bytes)
    (e : PathEntry) : SerialisedPathEntry :=
  ⟨destination_hash, e.timestamp, e.next_hop, e.hops, e.expires,
   takeLast PERSIST_RANDOM_BLOBS e.random_blobs, interface_hash, e.packet_hash⟩

/-- C9 (code bug): a legal in-memory path entry holding 33 distinct random
blobs (distinct, at most 64) is serialized by save_path_table with all 33
blobs, exceeding the documented PERSIST_RANDOM_BLOBS bound of 32 that
save_tunnel_table does apply to the same entry. -/
theorem c9_code_bug_eval :
    ((List.range 33).map (fun i => [i])).Nodup
    ∧ ((List.range 33).map (fun i => [i])).length ≤ MAX_RANDOM_BLOBS
    ∧ (serialise_destination [0]
        ⟨0, [], 1, 0, (List.range 33).map (fun i => [i]), 0, []⟩).random_blobs.length = 33
    ∧ ¬ (serialise_destination [0]
        ⟨0, [], 1, 0, (List.range 33).map (fun i => [i]), 0, []⟩).random_blobs.length
        ≤ PERSIST_RANDOM_BLOBS
    ∧ (serialise_tunnel_path 0 [0]
        ⟨0, [], 1, 0, (List.range 33).map (fun i => [i]), 0, []⟩).random_blobs.length
        ≤ PERSIST_RANDOM_BLOBS := by
  refine ⟨?_, ?_, ?_, ?_, ?_⟩ <;> decide

theorem takeLast_length_of_le {α : Type} (n : Nat) (l : List α) (h : n ≤ l.length) :
    (takeLast n l).length = n := by
  unfold takeLast
  rw [List.length_drop]
  omega

/-- The masking loop of Transport.transmit lines 816-828: byte zero is
masked and re-ORed with the IFAC flag, byte one and all bytes after the
IFAC are masked, the IFAC bytes themselves are left as they are. -/
def ifac_mask_loop (ifac_size : Nat) (mask : Bytes) : Nat → Bytes → Bytes
  | _, [] => []
  | i, b :: rest =>
      (if i = 0 then (b ^^^ mask.getD i 0) ||| 0x80
       else if i = 1 ∨ i > ifac_size + 1 then b ^^^ mask.getD i 0
       else b) :: ifac_mask_loop ifac_size mask (i + 1) rest

/-- The unmasking loop of Transport.inbound lines 1171-1179: header bytes
and payload are unmasked, the IFAC bytes are left as they are. -/
def ifac_unmask_loop (ifac_size : Nat) (mask : Bytes) : Nat → Bytes → Bytes
  | _, [] => []
  | i, b :: rest =>
      (if i ≤ 1 ∨ i > ifac_size + 1 then b ^^^ mask.getD i 0 else b)
        :: ifac_unmask_loop ifac_size mask (i + 1) rest

/-- Outbound IFAC masking of Transport.transmit, lines 795-831: the IFAC is
the tail of the signature over the raw frame, the keystream is derived by
hkdf from it with the interface IFAC key as salt, the IFAC flag is set on
byte zero, and the assembled header plus IFAC plus payload is masked. -/
def ifac_mask (sign : Bytes → Bytes) (hkdf : Nat → Bytes → Bytes → Bytes)
    (ifac_key : Bytes) (ifac_size : Nat) (raw : Bytes) : Bytes :=
  let ifac := takeLast ifac_size (sign raw)
  let mask := hkdf (raw.length + ifac_size) ifac ifac_key
  let new_raw := ((raw.headD 0) ||| 0x80) :: raw.getD 1 0 :: (ifac ++ raw.drop 2)
  ifac_mask_loop ifac_size mask 0 new_raw

/-- Inbound IFAC processing of Transport.inbound lines 1151-1213 for an
interface with an IFAC identity configured: require the IFAC flag and a
frame longer than two plus the IFAC size, extract the IFAC, derive the
same keystream, unmask, clear the flag, recompute the expected IFAC over
the cleaned bytes and accept only on equality. -/
def ifac_unmask (sign : Bytes → Bytes) (hkdf : Nat → Bytes → Bytes → Bytes)
    (ifac_key : Bytes) (ifac_size : Nat) (raw : Bytes) : Option Bytes :=
  if raw.length > 2 then
    if (raw.headD 0) &&& 0x80 = 0x80 then
      if raw.length > 2 + ifac_size then
        let ifac := (raw.drop 2).take ifac_size
        let mask := hkdf raw.length ifac ifac_key
        let unmasked_raw := ifac_unmask_loop ifac_size mask 0 raw
        let new_raw := ((unmasked_raw.headD 0) &&& 0x7f) :: unmasked_raw.getD 1 0
          :: unmasked_raw.drop (2 + ifac_size)
        let expected_ifac := takeLast ifac_size (sign new_raw)
        if ifac = expected_ifac then some new_raw else none
      else none
    else none
  else none

theorem ifac_mask_loop_length (n : Nat) (mask : Bytes) (i : Nat) (l : Bytes) :
    (ifac_mask_loop n mask i l).length = l.length := by
  induction l generalizing i with
  | nil => rfl
  | cons b rest ih => simp [ifac_mask_loop, ih]

theorem ifac_mask_loop_head (n : Nat) (mask : Bytes) (b0 b1 : Nat) (rest : Bytes) :
    ifac_mask_loop n mask 0 (b0 :: b1 :: rest)
      = ((b0 ^^^ mask.getD 0 0) ||| 0x80) :: (b1 ^^^ mask.getD 1 0)
          :: ifac_mask_loop n mask 2 rest := by
  simp [ifac_mask_loop]

theorem ifac_unmask_loop_head (n : Nat) (mask : Bytes) (b0 b1 : Nat) (rest : Bytes) :
    ifac_unmask_loop n mask 0 (b0 :: b1 :: rest)
      = (b0 ^^^ mask.getD 0 0) :: (b1 ^^^ mask.getD 1 0)
          :: ifac_unmask_loop n mask 2 rest := by
  simp [ifac_unmask_loop]

theorem ifac_mask_loop_mid (n : Nat) (mask : Bytes) (mid rest : Bytes) (i : Nat)
    (h2 : 2 ≤ i) (hle : i + mid.length ≤ n + 2) :
    ifac_mask_loop n mask i (mid ++ rest)
      = mid ++ ifac_mask_loop n mask (i + mid.length) rest := by
  induction mid generalizing i with
  | nil => simp
  | cons x xs ih =>
      simp only [List.cons_append, ifac_mask_loop, List.length_cons]
      have hlen : (x :: xs).length = xs.length + 1 := rfl
      rw [if_neg (by omega : ¬ i = 0),
        if_neg (by rw [hlen] at hle; omega : ¬ (i = 1 ∨ i > n + 1))]
      simp only [List.append_eq]
      rw [ih (i + 1) (by omega) (by rw [hlen] at hle; omega)]
      have harith : i + 1 + xs.length = i + (xs.length + 1) := by omega
      rw [harith]

theorem ifac_unmask_loop_mid (n : Nat) (mask : Bytes) (mid rest : Bytes) (i : Nat)
    (h2 : 2 ≤ i) (hle : i + mid.length ≤ n + 2) :
    ifac_unmask_loop n mask i (mid ++ rest)
      = mid ++ ifac_unmask_loop n mask (i + mid.length) rest := by
  induction mid generalizing i with
  | nil => simp
  | cons x xs ih =>
      simp only [List.cons_append, ifac_unmask_loop, List.length_cons]
      have hlen : (x :: xs).length = xs.length + 1 := rfl
      rw [if_neg (by rw [hlen] at hle; omega : ¬ (i ≤ 1 ∨ i > n + 1))]
      simp only [List.append_eq]
      rw [ih (i + 1) (by omega) (by rw [hlen] at hle; omega)]
      have harith : i + 1 + xs.length = i + (xs.length + 1) := by omega
      rw [harith]

theorem ifac_unmask_mask_tail (n : Nat) (mask : Bytes) (l : Bytes) (i : Nat)
    (hi : i > n + 1) :
    ifac_unmask_loop n mask i (ifac_mask_loop n mask i l) = l := by
  induction l generalizing i with
  | nil => rfl
  | cons b rest ih =>
      simp only [ifac_mask_loop]
      rw [if_neg (by omega : ¬ i = 0), if_pos (Or.inr hi)]
      simp only [ifac_unmask_loop]
      rw [if_pos (Or.inr hi : i ≤ 1 ∨ i > n + 1)]
      rw [Nat.xor_cancel_right]
      rw [ih (i + 1) (by omega)]

theorem lor_128_and_128 (y : Nat) : (y ||| 128) &&& 128 = 128 := by
  apply Nat.eq_of_testBit_eq
  intro i
  simp only [Nat.testBit_land, Nat.testBit_lor]
  cases h : (128 : Nat).testBit i <;> simp [h]

theorem unmask_byte0 (x m : Nat) (hx : x < 128) :
    ((((x ||| 128) ^^^ m) ||| 128) ^^^ m) &&& 127 = x := by
  apply Nat.eq_of_testBit_eq
  intro i
  simp only [Nat.testBit_land, Nat.testBit_xor, Nat.testBit_lor]
  have h127 : (127 : Nat).testBit i = decide (i < 7) := by
    rw [show (127 : Nat) = 2 ^ 7 - 1 from rfl, Nat.testBit_two_pow_sub_one]
  have h128 : (128 : Nat).testBit i = decide (7 = i) := by
    rw [show (128 : Nat) = 2 ^ 7 from rfl, Nat.testBit_two_pow]
  by_cases hi : i < 7
  · have h7 : ¬ (7 = i) := by omega
    rw [h127, h128]
    simp only [h7, decide_eq_true_eq, decide_eq_false h7, Bool.or_false, hi, decide_eq_true hi,
      Bool.and_true]
    cases x.testBit i <;> cases m.testBit i <;> rfl
  · have hxb : x.testBit i = false := by
      apply Nat.testBit_lt_two_pow
      calc x < 2 ^ 7 := hx
        _ ≤ 2 ^ i := Nat.pow_le_pow_right (by omega) (by omega)
    rw [h127, hxb]
    simp [hi]

/-- The full IFAC mask-then-unmask round trip, stated over the derived IFAC
bytes and keystream to keep the terms readable: an outbound-masked frame
passes every inbound check and unmasks to the original bytes. -/
theorem ifac_roundtrip_core (sign : Bytes → Bytes)
    (hkdf : Nat → Bytes → Bytes → Bytes) (ifac_key : Bytes) (n : Nat)
    (M ifacE t : Bytes) (r0 r1 : Nat)
    (hn : 1 ≤ n) (ht : 1 ≤ t.length) (hr0 : r0 < 128)
    (hifacE : ifacE = takeLast n (sign (r0 :: r1 :: t)))
    (hlen : ifacE.length = n)
    (hM : M = hkdf (t.length + 2 + n) ifacE ifac_key) :
    ifac_unmask sign hkdf ifac_key n
        (ifac_mask_loop n M 0 ((r0 ||| 0x80) :: r1 :: (ifacE ++ t)))
      = some (r0 :: r1 :: t) := by
  have hmaskshape : ifac_mask_loop n M 0 ((r0 ||| 0x80) :: r1 :: (ifacE ++ t))
      = (((r0 ||| 0x80) ^^^ M.getD 0 0) ||| 0x80) :: (r1 ^^^ M.getD 1 0)
          :: (ifacE ++ ifac_mask_loop n M (2 + n) t) := by
    rw [ifac_mask_loop_head, ifac_mask_loop_mid n M ifacE t 2 (le_refl 2) (by omega), hlen]
  rw [hmaskshape]
  set w0 := ((r0 ||| 0x80) ^^^ M.getD 0 0) ||| 0x80 with hw0
  set w1 := r1 ^^^ M.getD 1 0 with hw1
  set mt := ifac_mask_loop n M (2 + n) t with hmt
  have hmtlen : mt.length = t.length := by rw [hmt]; exact ifac_mask_loop_length n M (2 + n) t
  have hlen_tail : (ifacE ++ mt).length = n + t.length := by
    rw [List.length_append, hlen, hmtlen]
  have hc1 : (w0 :: w1 :: (ifacE ++ mt)).length > 2 := by
    simp only [List.length_cons, hlen_tail]
    omega
  have hc2 : (w0 :: w1 :: (ifacE ++ mt)).headD 0 &&& 0x80 = 0x80 := by
    show w0 &&& 0x80 = 0x80
    rw [hw0]
    exact lor_128_and_128 _
  have hc3 : (w0 :: w1 :: (ifacE ++ mt)).length > 2 + n := by
    simp only [List.length_cons, hlen_tail]
    omega
  simp only [ifac_unmask]
  rw [if_pos hc1, if_pos hc2, if_pos hc3]
  have hifacX : ((w0 :: w1 :: (ifacE ++ mt)).drop 2).take n = ifacE := by
    show (ifacE ++ mt).take n = ifacE
    rw [← hlen]
    exact List.take_left ifacE mt
  rw [hifacX]
  have hmask2 : hkdf (w0 :: w1 :: (ifacE ++ mt)).length ifacE ifac_key = M := by
    have hL : (w0 :: w1 :: (ifacE ++ mt)).length = t.length + 2 + n := by
      simp only [List.length_cons, hlen_tail]
      omega
    rw [hL, hM]
  rw [hmask2]
  have hu : ifac_unmask_loop n M 0 (w0 :: w1 :: (ifacE ++ mt))
      = (w0 ^^^ M.getD 0 0) :: r1 :: (ifacE ++ t) := by
    rw [ifac_unmask_loop_head]
    rw [hw1, Nat.xor_cancel_right]
    rw [ifac_unmask_loop_mid n M ifacE mt 2 (le_refl 2) (by omega), hlen, hmt,
      ifac_unmask_mask_tail n M t (2 + n) (by omega)]
  rw [hu]
  have hhead : ((w0 ^^^ M.getD 0 0) :: r1 :: (ifacE ++ t)).headD 0 &&& 0x7f = r0 := by
    show (w0 ^^^ M.getD 0 0) &&& 0x7f = r0
    rw [hw0]
    exact unmask_byte0 r0 (M.getD 0 0) hr0
  have hget : ((w0 ^^^ M.getD 0 0) :: r1 :: (ifacE ++ t)).getD 1 0 = r1 := rfl
  have hdropnew : ((w0 ^^^ M.getD 0 0) :: r1 :: (ifacE ++ t)).drop (2 + n) = t := by
    have h2n : 2 + n = n + 2 := by omega
    rw [h2n]
    show (ifacE ++ t).drop n = t
    rw [← hlen]
    exact List.drop_left ifacE t
  rw [hhead, hget, hdropnew]
  rw [if_pos hifacE]

/-- C3 (amended): for every raw frame of length at least 3 whose IFAC flag
bit (the high bit of byte zero) is clear, on an interface with an IFAC
identity, key and size configured (size at least one, signatures at least
ifac_size bytes long), the inbound unmasking of the outbound masked frame
accepts the frame and recovers exactly the original raw bytes, and the
masked on-wire frame always has the IFAC flag set. -/
theorem c3_ifac_roundtrip_amended (sign : Bytes → Bytes)
    (hkdf : Nat → Bytes → Bytes → Bytes) (ifac_key : Bytes) (ifac_size : Nat)
    (raw : Bytes) (r0 r1 : Nat) (t : Bytes)
    (hsize : 1 ≤ ifac_size)
    (hsig : ∀ l, ifac_size ≤ (sign l).length)
    (hraw : raw = r0 :: r1 :: t) (ht : 1 ≤ t.length)
    (hflag : r0 < 128) :
    ifac_unmask sign hkdf ifac_key ifac_size
        (ifac_mask sign hkdf ifac_key ifac_size raw) = some raw
    ∧ (ifac_mask sign hkdf ifac_key ifac_size raw).headD 0 &&& 0x80 = 0x80 := by
  subst hraw
  have hifaclen : (takeLast ifac_size (sign (r0 :: r1 :: t))).length = ifac_size :=
    takeLast_length_of_le ifac_size (sign (r0 :: r1 :: t)) (hsig (r0 :: r1 :: t))
  have hdef : ifac_mask sign hkdf ifac_key ifac_size (r0 :: r1 :: t)
      = ifac_mask_loop ifac_size
          (hkdf (t.length + 2 + ifac_size) (takeLast ifac_size (sign (r0 :: r1 :: t)))
            ifac_key)
          0 ((r0 ||| 0x80) :: r1 :: (takeLast ifac_size (sign (r0 :: r1 :: t)) ++ t)) := rfl
  constructor
  · rw [hdef]
    exact ifac_roundtrip_core sign hkdf ifac_key ifac_size
      (hkdf (t.length + 2 + ifac_size) (takeLast ifac_size (sign (r0 :: r1 :: t))) ifac_key)
      (takeLast ifac_size (sign (r0 :: r1 :: t))) t r0 r1 hsize ht hflag rfl hifaclen rfl
  · rw [hdef, ifac_mask_loop_head]
    show (((r0 ||| 0x80)
        ^^^ (hkdf (t.length + 2 + ifac_size) (takeLast ifac_size (sign (r0 :: r1 :: t)))
              ifac_key).getD 0 0) ||| 0x80) &&& 0x80 = 0x80
    exact lor_128_and_128 _

/-- C3 (amended, witness): a concrete three-byte frame with a one-byte IFAC
round-trips through masking and unmasking. -/
theorem c3_ifac_roundtrip_amended_witness :
    ifac_unmask (fun _ => [5]) (fun k _ _ => List.replicate k 7) [] 1
        (ifac_mask (fun _ => [5]) (fun k _ _ => List.replicate k 7) [] 1 [1, 2, 3])
      = some [1, 2, 3]
    ∧ (ifac_mask (fun _ => [5]) (fun k _ _ => List.replicate k 7) [] 1
        [1, 2, 3]).headD 0 &&& 0x80 = 0x80 := by
  exact c3_ifac_roundtrip_amended (fun _ => [5]) (fun k _ _ => List.replicate k 7) [] 1
    [1, 2, 3] 1 2 [3] (le_refl 1) (fun _ => (by decide : 1 ≤ ([5] : Bytes).length)) rfl (by decide) (by decide)

/-- C3 (counterexample): a raw frame whose first byte already has the IFAC
flag bit set does not round-trip: with an identity signer and an all-zero
keystream the masked frame is accepted on unmasking, but the recovered
bytes have the flag bit cleared, so they differ from the original raw. -/
theorem c3_counterexample :
    ifac_unmask (fun l => l) (fun k _ _ => List.replicate k 0) [] 1
        (ifac_mask (fun l => l) (fun k _ _ => List.replicate k 0) [] 1 [128, 2, 3])
      = some [0, 2, 3]
    ∧ some ([0, 2, 3] : Bytes) ≠ some ([128, 2, 3] : Bytes) := by
  constructor <;> decide

/-- The outbound-interface attributes consulted by the LINKREQUEST transit
branch: HW_MTU (None when the interface reports no hardware MTU),
AUTOCONFIGURE_MTU and FIXED_MTU. -/
structure TransitInterface where
  hw_mtu : Option Nat
  autoconfigure_mtu : Bool
  fixed_mtu : Bool
deriving DecidableEq, Repr

/-- The table effect of transit forwarding: a reverse-table record for
non-LINKREQUEST packets, a link-table record for LINKREQUEST packets. -/
inductive TransitTableEffect where
  | reverse : Bytes → ReverseEntry → TransitTableEffect
  | link : Bytes → LinkEntry → TransitTableEffect
deriving DecidableEq, Repr

/-- Transit forwarding of Transport.inbound lines 1337-1413 for a packet in
transport addressed to this instance with a known path entry, including the
LINKREQUEST branch of lines 1363-1402: the proof timeout, the link-MTU
handling (the LINK_MTU_SIZE suffix of the rewritten frame is stripped when
the packet carries an MTU field but the outbound interface has no HW MTU
or supports neither autoconfigured nor fixed MTU, and is replaced by
re-encoded signalling bytes when the outbound HW MTU is smaller than the
requested MTU) and the link-table entry with validated false; for other
packet types the reverse-table record of lines 1404-1410.  Returns the
transmit (interface, frame), the table effect, and the path entry with its
timestamp refreshed (line 1413).  Modelled from the spec: the packet MTU
field (mtu_from_lr, none when absent), the link mode, the signalling-byte
encoder and the link id are parameters, because mtu_from_lr_packet,
mode_from_lr_packet, signalling_bytes and link_id_from_lr_packet live in
the link module outside this repository slice; est_timeout_per_hop stands
for the establishment timeout constant and extra_timeout for
extra_link_proof_timeout of the receiving interface, whose value uses the
interface bitrate. -/
def transit_forward (entry : PathEntry) (outbound_iface : TransitInterface)
    (est_timeout_per_hop extra_timeout : Nat) (mtu_from_lr : Option Nat) (mode : Nat)
    (signalling_bytes : Nat → Nat → Bytes) (link_id : Bytes)
    (p : TransitPacket) (now : Nat) :
    (Nat × Bytes) × TransitTableEffect × PathEntry :=
  let next_hop := entry.next_hop
  let remaining_hops := entry.hops
  let new_raw := transit_new_raw p.raw p.flags p.hops next_hop remaining_hops
  let outbound_interface := entry.receiving_interface
  if p.packet_type = PacketType.LINKREQUEST then
    let proof_timeout := extra_timeout + (now + est_timeout_per_hop * max 1 remaining_hops)
    let new_raw2 :=
      match mtu_from_lr with
      | none => new_raw
      | some path_mtu =>
          match outbound_iface.hw_mtu with
          | none => new_raw.take (new_raw.length - LINK_MTU_SIZE)
          | some nh_mtu =>
              if ¬ outbound_iface.autoconfigure_mtu = true
                 ∧ ¬ outbound_iface.fixed_mtu = true then
                new_raw.take (new_raw.length - LINK_MTU_SIZE)
              else if nh_mtu < path_mtu then
                new_raw.take (new_raw.length - LINK_MTU_SIZE) ++ signalling_bytes nh_mtu mode
              else new_raw
    ((outbound_interface, new_raw2),
     TransitTableEffect.link link_id
       ⟨now, next_hop, outbound_interface, remaining_hops, p.receiving_interface,
        p.hops, p.destination_hash, false, proof_timeout⟩,
     ⟨now, entry.next_hop, entry.hops, entry.expires, entry.random_blobs,
      entry.receiving_interface, entry.packet_hash⟩)
  else
    ((outbound_interface, new_raw),
     TransitTableEffect.reverse p.truncated_hash
       ⟨p.receiving_interface, outbound_interface, now⟩,
     ⟨now, entry.next_hop, entry.hops, entry.expires, entry.random_blobs,
      entry.receiving_interface, entry.packet_hash⟩)

/-- C4 (counterexample): a LINKREQUEST transit packet carrying a link-MTU
field, forwarded over an outbound interface that supports neither
autoconfigured nor fixed MTU, is transmitted with its three-byte MTU
suffix stripped, not with only the hop byte refreshed and the next-hop id
replaced as the claim states. -/
theorem c4_counterexample :
    (transit_forward ⟨0, [7,7,7,7,7,7,7,7,7,7,7,7,7,7,7,7], 2, 9, [], 4, []⟩
        ⟨some 300, false, false⟩ 2 1 (some 500) 0 (fun _ _ => [1, 1, 1]) [3]
        ⟨65 :: 3 :: ([1,1,1,1,1,1,1,1,1,1,1,1,1,1,1,1] ++ [8, 8, 9, 9, 9]), 65, 4,
          PacketType.LINKREQUEST, [2], 6, [5, 5]⟩ 77).1.2
      = 65 :: (4 % 256) :: ([7,7,7,7,7,7,7,7,7,7,7,7,7,7,7,7] ++ [8, 8])
    ∧ ¬ (transit_forward ⟨0, [7,7,7,7,7,7,7,7,7,7,7,7,7,7,7,7], 2, 9, [], 4, []⟩
        ⟨some 300, false, false⟩ 2 1 (some 500) 0 (fun _ _ => [1, 1, 1]) [3]
        ⟨65 :: 3 :: ([1,1,1,1,1,1,1,1,1,1,1,1,1,1,1,1] ++ [8, 8, 9, 9, 9]), 65, 4,
          PacketType.LINKREQUEST, [2], 6, [5, 5]⟩ 77).1.2
      = 65 :: (4 % 256) :: ([7,7,7,7,7,7,7,7,7,7,7,7,7,7,7,7] ++ [8, 8, 9, 9, 9]) := by
  constructor <;> decide

/-- C4 (amended): a transit packet addressed to this instance with a known
path entry goes out on the stored interface.  The base rewrite by the
stored remaining hops is as the claim states (above one: hop byte
refreshed and the 16-byte next-hop transport id replaced, header byte
unchanged; exactly one: transport header stripped into HEADER_1 BROADCAST
with the updated hop byte; zero: only the hop byte updated).  A
non-LINKREQUEST packet is transmitted exactly as this rewrite and a
reverse-table entry (receiving interface, outbound interface, now) is
recorded under the truncated packet hash.  A LINKREQUEST instead records a
link-table entry with validated false, and its frame is the rewrite with
the three-byte link-MTU suffix kept (no MTU field, or outbound MTU at
least the requested one on a supporting interface), stripped (no outbound
HW MTU, or neither autoconfigured nor fixed MTU supported), or replaced by
re-encoded signalling bytes (supporting interface with a smaller HW
MTU). -/
theorem c4_transit_rewrite_amended (entry : PathEntry)
    (outbound_iface : TransitInterface) (est_timeout_per_hop extra_timeout : Nat)
    (mtu_from_lr : Option Nat) (mode : Nat) (signalling_bytes : Nat → Nat → Bytes)
    (link_id : Bytes) (p : TransitPacket) (now : Nat) (a b : Nat) (tid rest : Bytes)
    (hann : p.packet_type ≠ PacketType.ANNOUNCE)
    (hraw : p.raw = a :: b :: (tid ++ rest)) (htid : tid.length = 16)
    (hnh : entry.next_hop.length = 16) :
    (transit_forward entry outbound_iface est_timeout_per_hop extra_timeout mtu_from_lr
        mode signalling_bytes link_id p now).1.1 = entry.receiving_interface
    ∧ (entry.hops > 1 →
        transit_new_raw p.raw p.flags p.hops entry.next_hop entry.hops
          = a :: (p.hops % 256) :: (entry.next_hop ++ rest))
    ∧ (entry.hops = 1 →
        transit_new_raw p.raw p.flags p.hops entry.next_hop entry.hops
          = (HEADER_1 <<< 6 ||| BROADCAST <<< 4 ||| (p.flags &&& 15))
              :: (p.hops % 256) :: rest)
    ∧ (entry.hops = 0 →
        transit_new_raw p.raw p.flags p.hops entry.next_hop entry.hops
          = a :: (p.hops % 256) :: (tid ++ rest))
    ∧ (p.packet_type ≠ PacketType.LINKREQUEST →
        (transit_forward entry outbound_iface est_timeout_per_hop extra_timeout
            mtu_from_lr mode signalling_bytes link_id p now).1.2
          = transit_new_raw p.raw p.flags p.hops entry.next_hop entry.hops
        ∧ (transit_forward entry outbound_iface est_timeout_per_hop extra_timeout
            mtu_from_lr mode signalling_bytes link_id p now).2.1
          = TransitTableEffect.reverse p.truncated_hash
              ⟨p.receiving_interface, entry.receiving_interface, now⟩)
    ∧ (p.packet_type = PacketType.LINKREQUEST →
        (transit_forward entry outbound_iface est_timeout_per_hop extra_timeout
            mtu_from_lr mode signalling_bytes link_id p now).2.1
          = TransitTableEffect.link link_id
              ⟨now, entry.next_hop, entry.receiving_interface, entry.hops,
               p.receiving_interface, p.hops, p.destination_hash, false,
               extra_timeout + (now + est_timeout_per_hop * max 1 entry.hops)⟩
        ∧ (mtu_from_lr = none →
            (transit_forward entry outbound_iface est_timeout_per_hop extra_timeout
                mtu_from_lr mode signalling_bytes link_id p now).1.2
              = transit_new_raw p.raw p.flags p.hops entry.next_hop entry.hops)
        ∧ (∀ path_mtu, mtu_from_lr = some path_mtu →
            outbound_iface.hw_mtu = none →
            (transit_forward entry outbound_iface est_timeout_per_hop extra_timeout
                mtu_from_lr mode signalling_bytes link_id p now).1.2
              = (transit_new_raw p.raw p.flags p.hops entry.next_hop entry.hops).take
                  ((transit_new_raw p.raw p.flags p.hops entry.next_hop
                    entry.hops).length - LINK_MTU_SIZE))
        ∧ (∀ path_mtu nh_mtu, mtu_from_lr = some path_mtu →
            outbound_iface.hw_mtu = some nh_mtu →
            ((¬ outbound_iface.autoconfigure_mtu = true
              ∧ ¬ outbound_iface.fixed_mtu = true) →
              (transit_forward entry outbound_iface est_timeout_per_hop extra_timeout
                  mtu_from_lr mode signalling_bytes link_id p now).1.2
                = (transit_new_raw p.raw p.flags p.hops entry.next_hop entry.hops).take
                    ((transit_new_raw p.raw p.flags p.hops entry.next_hop
                      entry.hops).length - LINK_MTU_SIZE))
            ∧ ((outbound_iface.autoconfigure_mtu = true ∨ outbound_iface.fixed_mtu = true) →
                (nh_mtu < path_mtu →
                  (transit_forward entry outbound_iface est_timeout_per_hop extra_timeout
                      mtu_from_lr mode signalling_bytes link_id p now).1.2
                    = (transit_new_raw p.raw p.flags p.hops entry.next_hop
                        entry.hops).take
                        ((transit_new_raw p.raw p.flags p.hops entry.next_hop
                          entry.hops).length - LINK_MTU_SIZE)
                      ++ signalling_bytes nh_mtu mode)
                ∧ (¬ nh_mtu < path_mtu →
                    (transit_forward entry outbound_iface est_timeout_per_hop
                        extra_timeout mtu_from_lr mode signalling_bytes link_id
                        p now).1.2
                      = transit_new_raw p.raw p.flags p.hops entry.next_hop
                          entry.hops)))) := by
  have hdrop18 : (a :: b :: (tid ++ rest)).drop (TRUNCATED_HASHLENGTH_B + 2) = rest := by
    have h16 : TRUNCATED_HASHLENGTH_B + 2 = tid.length + 2 := by rw [htid]; rfl
    rw [h16]
    show (tid ++ rest).drop tid.length = rest
    exact List.drop_left tid rest
  refine ⟨?_, ?_, ?_, ?_, ?_, ?_⟩
  · by_cases hlr : p.packet_type = PacketType.LINKREQUEST
    · simp only [transit_forward, if_pos hlr]
    · simp only [transit_forward, if_neg hlr]
  · intro h1
    simp only [transit_new_raw, if_pos h1, hraw, hdrop18]
    rfl
  · intro h1
    simp only [transit_new_raw, if_neg (by omega : ¬ entry.hops > 1), if_pos h1, hraw,
      hdrop18]
    rfl
  · intro h0
    simp only [transit_new_raw, if_neg (by omega : ¬ entry.hops > 1),
      if_neg (by omega : ¬ entry.hops = 1), hraw]
    rfl
  · intro hlr
    simp only [transit_forward, if_neg hlr]
    refine ⟨?_, ?_⟩ <;> (first | rfl | trivial)
  · intro hlr
    refine ⟨by simp only [transit_forward, if_pos hlr], ?_, ?_, ?_⟩
    · intro hm
      simp only [transit_forward, if_pos hlr, hm]
    · intro path_mtu hm hw
      simp only [transit_forward, if_pos hlr, hm, hw]
    · intro path_mtu nh_mtu hm hw
      constructor
      · intro hno
        simp only [transit_forward, if_pos hlr, hm, hw, if_pos hno]
      · intro hyes
        have hnotno : ¬ (¬ outbound_iface.autoconfigure_mtu = true
            ∧ ¬ outbound_iface.fixed_mtu = true) := by
          rcases hyes with h | h <;> simp [h]
        constructor
        · intro hlt
          simp only [transit_forward, if_pos hlr, hm, hw, if_neg hnotno, if_pos hlt]
        · intro hge
          simp only [transit_forward, if_pos hlr, hm, hw, if_neg hnotno, if_neg hge]

/-- C4 (amended, witness): a LINKREQUEST over a two-hop path on an outbound
interface with a smaller autoconfigurable HW MTU has its MTU suffix
replaced by the re-encoded signalling bytes, and the link-table entry with
validated false is recorded. -/
theorem c4_transit_rewrite_amended_witness :
    (transit_forward ⟨0, [7,7,7,7,7,7,7,7,7,7,7,7,7,7,7,7], 2, 9, [], 4, []⟩
        ⟨some 100, true, false⟩ 2 1 (some 500) 0 (fun _ _ => [1, 1, 1]) [3]
        ⟨65 :: 3 :: ([1,1,1,1,1,1,1,1,1,1,1,1,1,1,1,1] ++ [8, 8, 9, 9, 9]), 65, 4,
          PacketType.LINKREQUEST, [2], 6, [5, 5]⟩ 77).1.2
      = 65 :: (4 % 256) :: ([7,7,7,7,7,7,7,7,7,7,7,7,7,7,7,7] ++ [8, 8, 1, 1, 1])
    ∧ (transit_forward ⟨0, [7,7,7,7,7,7,7,7,7,7,7,7,7,7,7,7], 2, 9, [], 4, []⟩
        ⟨some 100, true, false⟩ 2 1 (some 500) 0 (fun _ _ => [1, 1, 1]) [3]
        ⟨65 :: 3 :: ([1,1,1,1,1,1,1,1,1,1,1,1,1,1,1,1] ++ [8, 8, 9, 9, 9]), 65, 4,
          PacketType.LINKREQUEST, [2], 6, [5, 5]⟩ 77).2.1
      = TransitTableEffect.link [3]
          ⟨77, [7,7,7,7,7,7,7,7,7,7,7,7,7,7,7,7], 4, 2, 6, 4, [2], false,
           1 + (77 + 2 * max 1 2)⟩ := by
  have h := c4_transit_rewrite_amended ⟨0, [7,7,7,7,7,7,7,7,7,7,7,7,7,7,7,7], 2, 9, [], 4, []⟩
    ⟨some 100, true, false⟩ 2 1 (some 500) 0 (fun _ _ => [1, 1, 1]) [3]
    ⟨65 :: 3 :: ([1,1,1,1,1,1,1,1,1,1,1,1,1,1,1,1] ++ [8, 8, 9, 9, 9]), 65, 4,
      PacketType.LINKREQUEST, [2], 6, [5, 5]⟩ 77
    65 3 [1,1,1,1,1,1,1,1,1,1,1,1,1,1,1,1] [8, 8, 9, 9, 9]
    (by decide) rfl (by decide) (by decide)
  obtain ⟨h1, h2, h3, h4, h5, h6⟩ := h
  obtain ⟨heff, hmnone, hsn, hss⟩ := h6 rfl
  constructor
  · have hc := ((hss 500 100 rfl rfl).2 (Or.inl rfl)).1 (by decide)
    rw [hc]
    decide
  · exact heff
